import Mathlib

/-!
Shallow embedding of `src/main.py` (Area Boundary to Surface Converter for
Speckle Automate) and verification of the specification's claims about it.

Coordinates are exact rationals standing in for the source's float64 values.
The source compares Euclidean magnitudes (which need square roots) against a
nonnegative tolerance; here every such comparison is carried out in squared
form, which is equivalent over the reals for a nonnegative tolerance and
keeps all definitions in exact, executable arithmetic.
-/

set_option allowUnsafeReducibility true in
attribute [semireducible] Rat.mul Rat.add Rat.sub Rat.div Rat.inv Rat.neg

namespace NCR

/-- A 3D point (`specklepy` `Point` with `x`, `y`, `z` coordinates). -/
structure Point3 where
  x : ℚ
  y : ℚ
  z : ℚ
deriving DecidableEq

/-- The geometric payload probed by `get_curve_points` (main.py 120-134):
`start`/`end` attributes (line-like), a `points` attribute (polyline-like),
a `controlPoints` attribute (NURBS), or none of these. -/
inductive CurveGeom where
  | lineG (start end_ : Point3)
  | polyG (points : List Point3)
  | ctrlG (controlPoints : List Point3)
  | noneG
deriving DecidableEq

/-- A Speckle object as seen by `is_curve` and `get_curve_points`: whether
it is a `Base` instance, its `speckle_type` string, and which geometric
attributes it carries. -/
structure SpeckleObject where
  isBase : Bool
  speckle_type : String
  geom : CurveGeom
deriving DecidableEq

/-- A metadata value held on a boundary attribute: a number, a string, a
dict (the shape `parameters` may have), or some other Python value. -/
inductive MVal where
  | num (q : ℚ)
  | str (s : String)
  | mvdict (entries : List (String × MVal))
  | other

/-- A boundary attribute that may hold curves: a Python list of objects or
a single object (`extract_curves_from_boundary` handles both shapes). -/
inductive AttrVal where
  | alist (objs : List SpeckleObject)
  | aobj (o : SpeckleObject)

/-- An area-boundary record: the five attribute slots probed for curves
(`none` models a missing attribute, as for Python `hasattr`) plus the named
metadata attributes read by `extract_metadata`. -/
structure Boundary where
  curves : Option AttrVal
  outline : Option AttrVal
  boundary : Option AttrVal
  geometry : Option AttrVal
  displayValue : Option AttrVal
  mattrs : List (String × MVal)

/-- Occurrence of `pat` as a contiguous run inside a character list. -/
def char_occurs (pat : List Char) : List Char → Bool
  | [] => pat.isEmpty
  | c :: t => List.isPrefixOf pat (c :: t) || char_occurs pat t

/-- Python's `pat in hay` on strings: substring containment. -/
def str_contains (hay pat : String) : Bool :=
  char_occurs pat.data hay.data

/-- main.py 89: the substrings accepted by `is_curve`. -/
def curve_types : List String :=
  ["Line", "Polyline", "Curve", "Arc", "Circle", "Ellipse"]

/-- `AreaBoundaryProcessor.is_curve` (main.py 84-93): a `Base` instance
whose `speckle_type` string contains one of the `curve_types` substrings. -/
def is_curve (obj : SpeckleObject) : Bool :=
  obj.isBase && curve_types.any fun t => str_contains obj.speckle_type t

/-- One probing step of `extract_curves_from_boundary` (main.py 74-80): a
list attribute is filtered through `is_curve`; a single curve-typed object
is appended; anything else contributes nothing. -/
def probe_attr (acc : List SpeckleObject) (a : Option AttrVal) : List SpeckleObject :=
  match a with
  | some (.alist xs) => acc ++ xs.filter is_curve
  | some (.aobj x) => if is_curve x then acc ++ [x] else acc
  | none => acc

/-- `AreaBoundaryProcessor.extract_curves_from_boundary` (main.py 61-82):
probe `curves`, `outline`, `boundary`, `geometry`, `displayValue` in order
and accumulate every curve-typed object found. -/
def extract_curves_from_boundary (b : Boundary) : List SpeckleObject :=
  [b.curves, b.outline, b.boundary, b.geometry, b.displayValue].foldl probe_attr []

/-- `AreaBoundaryProcessor.get_curve_points` (main.py 120-134). -/
def get_curve_points (curve : SpeckleObject) : List Point3 :=
  match curve.geom with
  | .lineG s e => [s, e]
  | .polyG ps => ps
  | .ctrlG ps => ps
  | .noneG => []

/-- `AreaBoundaryProcessor.group_curves_into_loops` (main.py 95-102): the
source performs no connectivity analysis; every nonempty curve list is
returned as one single loop. -/
def group_curves_into_loops (curves : List SpeckleObject) : List (List SpeckleObject) :=
  if curves.isEmpty then [] else [curves]

/-- Componentwise difference `p - q` of two points (main.py 145-146). -/
def vsub3 (p q : Point3) : Point3 :=
  ⟨p.x - q.x, p.y - q.y, p.z - q.z⟩

/-- Cross product (main.py 149-153). -/
def cross3 (v w : Point3) : Point3 :=
  ⟨v.y * w.z - v.z * w.y, v.z * w.x - v.x * w.z, v.x * w.y - v.y * w.x⟩

/-- Dot product of two coordinate triples. -/
def dot3 (v w : Point3) : ℚ :=
  v.x * w.x + v.y * w.y + v.z * w.z

/-- The plane normal `(p2 - p1) x (p3 - p1)` of main.py 145-153. -/
def plane_normal (p1 p2 p3 : Point3) : Point3 :=
  cross3 (vsub3 p2 p1) (vsub3 p3 p1)

/-- `AreaBoundaryProcessor.points_are_coplanar` (main.py 136-171). The
source tests `sqrt(n . n) < tol` (degenerate normal) and, per remaining
point, `|(p - p1) . n / |n|| > tol`; both comparisons appear here in squared
form (`n . n < tol^2` and `((p - p1) . n)^2 > tol^2 * (n . n)`), which is
equivalent for a nonnegative tolerance and avoids irrational square roots. -/
def points_are_coplanar (tol : ℚ) : List Point3 → Bool
  | p1 :: p2 :: p3 :: p4 :: rest =>
    if dot3 (plane_normal p1 p2 p3) (plane_normal p1 p2 p3) < tol * tol then true
    else
      (p4 :: rest).all fun p =>
        decide (dot3 (vsub3 p p1) (plane_normal p1 p2 p3) *
            dot3 (vsub3 p p1) (plane_normal p1 p2 p3) ≤
          tol * tol * dot3 (plane_normal p1 p2 p3) (plane_normal p1 p2 p3))
  | _ => true

/-- `AreaBoundaryProcessor.curves_are_coplanar` (main.py 104-118). -/
def curves_are_coplanar (tol : ℚ) (curves : List SpeckleObject) : Bool :=
  if curves.length < 2 then true
  else
    let points := curves.flatMap get_curve_points
    if points.length < 3 then true
    else points_are_coplanar tol points

/-- Python dict assignment `d[k] = v`: overwrite in place, else append. -/
def dict_insert (d : List (String × MVal)) (k : String) (v : MVal) :
    List (String × MVal) :=
  if d.any (fun kv => kv.1 == k) then
    d.map fun kv => if kv.1 == k then (k, v) else kv
  else d ++ [(k, v)]

/-- Python dict lookup: `d[k]` when present, `none` when `k not in d`. -/
def dict_lookup (d : List (String × MVal)) (k : String) : Option MVal :=
  (d.find? fun kv => kv.1 == k).map (·.2)

/-- main.py 224-237: the attribute names preserved by `extract_metadata`. -/
def preserve_attrs : List String :=
  ["area", "perimeter", "name", "number", "level", "roomNumber", "roomName",
    "department", "occupancy", "parameters", "properties", "units"]

/-- `AreaBoundaryProcessor.extract_metadata` (main.py 219-247): copy each
preserved attribute present on the boundary, then merge the `parameters`
mapping on top when that attribute holds a dict. -/
def extract_metadata (b : Boundary) : List (String × MVal) :=
  let md := preserve_attrs.foldl
    (fun md attr =>
      match dict_lookup b.mattrs attr with
      | some v => dict_insert md attr v
      | none => md)
    []
  match dict_lookup b.mattrs "parameters" with
  | some (.mvdict ps) => ps.foldl (fun md kv => dict_insert md kv.1 kv.2) md
  | _ => md

/-- A Speckle `Mesh` as produced by the converter: flat vertex coordinate
list, flat triangle index list, and the dynamic attributes set by `setattr`.
The `speckle_type` and `converted_from` assignments of main.py 196-197
happen after the metadata transfer, so they are modelled as dedicated
fields rather than entries of the dynamic attribute map. -/
@[ext]
structure Mesh where
  vertices : List ℚ
  faces : List Nat
  attrs : String → Option MVal
  speckle_type : String
  converted_from : Option String

/-- `AreaBoundaryProcessor.create_mesh_from_points` (main.py 201-217): fan
triangulation emitting `[0, i, i+1]` for `i` in `range(1, len(points)-1)`. -/
def create_mesh_from_points (points : List Point3) : Mesh where
  vertices := points.flatMap fun p => [p.x, p.y, p.z]
  faces :=
    if 3 ≤ points.length then
      (List.range' 1 (points.length - 2)).flatMap fun i => [0, i, i + 1]
    else []
  attrs := fun _ => none
  speckle_type := "Objects.Geometry.Mesh"
  converted_from := none

/-- `setattr(mesh, k, v)` on the dynamic attribute map. -/
def set_attr (m : Mesh) (k : String) (v : MVal) : Mesh :=
  { m with attrs := fun q => if q = k then some v else m.attrs q }

/-- The metadata-transfer loop of main.py 192-193: one `setattr` per item. -/
def propagate_metadata (md : List (String × MVal)) (m : Mesh) : Mesh :=
  md.foldl (fun mm kv => set_attr mm kv.1 kv.2) m

/-- `AreaBoundaryProcessor.create_surface_from_curves` (main.py 173-199):
`None` when the pooled points number fewer than 3, else the fan mesh with
the metadata transferred and the provenance fields assigned. -/
def create_surface_from_curves (curves : List SpeckleObject)
    (metadata : List (String × MVal)) : Option Mesh :=
  let all_points := curves.flatMap get_curve_points
  if all_points.length < 3 then none
  else
    let mesh := propagate_metadata metadata (create_mesh_from_points all_points)
    some { mesh with
      speckle_type := "Objects.Geometry.Mesh"
      converted_from := some "AreaBoundary" }

/-- Outcome of one iteration of the boundary loop of `automate_function`:
a failure entry, a silent skip, or the meshes appended for the boundary. -/
inductive BResult where
  | failed (msg : String)
  | skipped
  | converted (meshes : List Mesh)

/-- The area-threshold test of main.py 303-308: `some true` means the
boundary is skipped, `some false` means processing proceeds, `none` means
the `<` comparison raises on a non-numeric `area` (which the surrounding
`except` turns into a failure entry). -/
def area_skip (metadata : List (String × MVal)) (minArea : ℚ) : Option Bool :=
  match dict_lookup metadata "area" with
  | some (.num a) => if a < minArea then some true else some false
  | some _ => none
  | none => some false

/-- One iteration of the boundary loop of `automate_function`
(main.py 286-321). The message of the `none` branch of `area_skip` stands
in for the `str(e)` text of the raised `TypeError`. -/
def process_boundary (tol minArea : ℚ) (b : Boundary) : BResult :=
  let curves := extract_curves_from_boundary b
  if curves.isEmpty then .failed "No curves found"
  else if !curves_are_coplanar tol curves then .failed "Curves not coplanar"
  else
    let metadata := extract_metadata b
    match area_skip metadata minArea with
    | some true => .skipped
    | none => .failed "unorderable area value"
    | some false =>
      .converted ((group_curves_into_loops curves).filterMap
        fun loop => create_surface_from_curves loop metadata)

/-- The failure entry a boundary contributes to `failed_conversions`. -/
def result_failure : BResult → Option String
  | .failed msg => some msg
  | _ => none

/-- The meshes a boundary contributes to `converted_surfaces`. -/
def result_meshes : BResult → List Mesh
  | .converted ms => ms
  | _ => []

/-- Last-occurrence association lookup; characterizes what a sequence of
`setattr` calls leaves on an attribute. -/
def assoc_last : List (String × MVal) → String → Option MVal
  | [], _ => none
  | kv :: t, k =>
    match assoc_last t k with
    | some v => some v
    | none => if kv.1 = k then some kv.2 else none

/-- A loop viewed as its set of sample points (direction-insensitive). -/
def loop_points (loop : List SpeckleObject) : Finset Point3 :=
  (loop.flatMap get_curve_points).toFinset

/-- Doubled signed area of a triangle in the `z = 0` plane (z-component of
the 2D cross product). -/
def cross2 (p q r : Point3) : ℚ :=
  (q.x - p.x) * (r.y - p.y) - (q.y - p.y) * (r.x - p.x)

/-- Triangle area for points in the `z = 0` plane. -/
def tri_area (p q r : Point3) : ℚ := |cross2 p q r| / 2

/-- Shoelace area of the quadrilateral `a b c d` in the `z = 0` plane. -/
def quad_area (a b c d : Point3) : ℚ :=
  |a.x * (b.y - d.y) + b.x * (c.y - a.y) + c.x * (d.y - b.y) + d.x * (a.y - c.y)| / 2

/-- The closed set of curve kinds named by the specification. -/
def spec_curve_kinds : List String :=
  ["Line", "Polyline", "GenericCurve", "Arc", "Circle", "Ellipse"]

/-- A line from the origin to `(1,0,0)`. -/
def line_a : SpeckleObject :=
  { isBase := true, speckle_type := "Objects.Geometry.Line"
    geom := .lineG ⟨0, 0, 0⟩ ⟨1, 0, 0⟩ }

/-- A line from `(1,0,0)` to `(1,1,0)`; with `line_a` it forms an open
chain whose free end `(1,1,0)` never returns to the start `(0,0,0)`. -/
def line_b : SpeckleObject :=
  { isBase := true, speckle_type := "Objects.Geometry.Line"
    geom := .lineG ⟨1, 0, 0⟩ ⟨1, 1, 0⟩ }

/-- A boundary whose only curves form the unclosed chain `line_a, line_b`. -/
def open_chain_boundary : Boundary :=
  { curves := some (.alist [line_a, line_b]), outline := none, boundary := none
    geometry := none, displayValue := none, mattrs := [] }

/-- A boundary declaring `area = 0.05` and holding no curves at all. -/
def low_area_boundary : Boundary :=
  { curves := none, outline := none, boundary := none
    geometry := none, displayValue := none, mattrs := [("area", .num (1 / 20))] }

/-- A triangle polyline. -/
def triangle_poly : SpeckleObject :=
  { isBase := true, speckle_type := "Objects.Geometry.Polyline"
    geom := .polyG [⟨0, 0, 0⟩, ⟨2, 0, 0⟩, ⟨0, 2, 0⟩] }

/-- A boundary with a triangle polyline and declared `area = 0.05`. -/
def small_area_boundary : Boundary :=
  { curves := some (.alist [triangle_poly]), outline := none, boundary := none
    geometry := none, displayValue := none, mattrs := [("area", .num (1 / 20))] }

/-- A polyline whose three sample points all coincide at the origin: one
distinct vertex after merging coincident points. -/
def collapsed_poly : SpeckleObject :=
  { isBase := true, speckle_type := "Objects.Geometry.Polyline"
    geom := .polyG [⟨0, 0, 0⟩, ⟨0, 0, 0⟩, ⟨0, 0, 0⟩] }

/-- A boundary whose only curve is `line_a` (two pooled points). -/
def two_point_boundary : Boundary :=
  { curves := some (.alist [line_a]), outline := none, boundary := none
    geometry := none, displayValue := none, mattrs := [] }

/-- A generic curve object with the real specklepy type string
`Objects.Geometry.Curve`. -/
def generic_curve_obj : SpeckleObject :=
  { isBase := true, speckle_type := "Objects.Geometry.Curve"
    geom := .ctrlG [⟨0, 0, 0⟩, ⟨1, 0, 0⟩, ⟨0, 1, 0⟩] }

/-- A boundary whose `curves` attribute holds only `generic_curve_obj`. -/
def generic_curve_boundary : Boundary :=
  { curves := some (.alist [generic_curve_obj]), outline := none, boundary := none
    geometry := none, displayValue := none, mattrs := [] }

/-- A single polyline whose own four sample points are not coplanar at
tolerance `1/100`: the last point sits one unit off the `z = 0` plane. -/
def nonplanar_poly : SpeckleObject :=
  { isBase := true, speckle_type := "Objects.Geometry.Polyline"
    geom := .polyG [⟨0, 0, 0⟩, ⟨1, 0, 0⟩, ⟨1, 1, 0⟩, ⟨0, 1, 1⟩] }

/-- C1: for a point list headed by `p1, p2, p3`, the analyzer forms the
normal `n = (p2 - p1) x (p3 - p1)` and reports non-planar exactly when the
normal is non-degenerate (`|n|` at least the tolerance) and some remaining
point `p` lies farther than the tolerance from the plane, i.e.
`|(p - p1) . n / |n|| > tol`. Both magnitude comparisons are stated in
squared form (`tol^2 ≤ n . n` and `((p - p1) . n)^2 > tol^2 * (n . n)`),
the exact-arithmetic equivalent for a nonnegative tolerance; with `rest`
empty the list has fewer than 4 points, both sides are false, and the
degenerate-normal case makes both sides false as well, so the equivalence
covers every branch of the source. -/
theorem c1_planarity_core (tol : ℚ) (p1 p2 p3 : Point3) (rest : List Point3) :
    points_are_coplanar tol (p1 :: p2 :: p3 :: rest) = false ↔
      (tol * tol ≤ dot3 (plane_normal p1 p2 p3) (plane_normal p1 p2 p3) ∧
        ∃ p ∈ rest,
          tol * tol * dot3 (plane_normal p1 p2 p3) (plane_normal p1 p2 p3) <
            dot3 (vsub3 p p1) (plane_normal p1 p2 p3) *
              dot3 (vsub3 p p1) (plane_normal p1 p2 p3)) := by
  cases rest with
  | nil => simp [points_are_coplanar]
  | cons p4 r =>
    by_cases h : dot3 (plane_normal p1 p2 p3) (plane_normal p1 p2 p3) < tol * tol
    · refine iff_of_false ?_ fun hc => absurd hc.1 (not_le.mpr h)
      simp [points_are_coplanar, h]
    · have hle := not_lt.mp h
      simp only [points_are_coplanar, if_neg h]
      constructor
      · intro hall
        refine ⟨hle, ?_⟩
        have hx := List.all_eq_false.mp hall
        obtain ⟨p, hp, hf⟩ := hx
        exact ⟨p, hp, not_le.mp (of_decide_eq_false (Bool.eq_false_iff.mpr hf))⟩
      · rintro ⟨-, p, hp, hgt⟩
        refine List.all_eq_false.mpr ⟨p, hp, ?_⟩
        simpa using not_le.mpr hgt

/-- C8: for every point list with fewer than 4 points, the planarity
analyzer returns planar. -/
theorem c8_few_points_planar (tol : ℚ) (pts : List Point3) (h : pts.length < 4) :
    points_are_coplanar tol pts = true := by
  match pts with
  | [] => rfl
  | [_] => rfl
  | [_, _] => rfl
  | [_, _, _] => rfl
  | _ :: _ :: _ :: _ :: r => simp [List.length_cons] at h; omega

/-- Witness for C8 at a concrete 3-point input. -/
theorem c8_few_points_planar_witness :
    points_are_coplanar (1 / 100) [⟨0, 0, 0⟩, ⟨1, 0, 0⟩, ⟨0, 1, 5⟩] = true :=
  c8_few_points_planar (1 / 100) [⟨0, 0, 0⟩, ⟨1, 0, 0⟩, ⟨0, 1, 5⟩] (by decide)

/-- C10: the coplanarity gate over curves returns planar for every curve
list with fewer than 2 curves, without inspecting any points. -/
theorem c10_single_curve_passes_gate (tol : ℚ) (cs : List SpeckleObject)
    (h : cs.length < 2) : curves_are_coplanar tol cs = true := by
  match cs with
  | [] => rfl
  | [_] => rfl
  | _ :: _ :: r => simp [List.length_cons] at h; omega

/-- Witness for C10: a single polyline whose own points are not coplanar at
tolerance `1/100` still passes the curve-level gate. -/
theorem c10_single_curve_passes_gate_witness :
    curves_are_coplanar (1 / 100) [nonplanar_poly] = true ∧
      points_are_coplanar (1 / 100) (get_curve_points nonplanar_poly) = false :=
  ⟨c10_single_curve_passes_gate (1 / 100) [nonplanar_poly] (by decide), by decide⟩

/-- C3: tessellating a strictly convex quadrilateral `a b c d` (taken in
counterclockwise order in the `z = 0` plane; strict convexity makes the four
vertices distinct, and the face construction of the tessellator never reads
the coordinates) produces exactly the 2 triangular faces `(0,1,2)` and
`(0,2,3)`, and the two triangle areas sum exactly to the quadrilateral's
shoelace area — exact equality, hence within any tolerance. -/
theorem c3_convex_quad_two_triangles (a b c d : Point3)
    (_hza : a.z = 0) (_hzb : b.z = 0) (_hzc : c.z = 0) (_hzd : d.z = 0)
    (h1 : 0 < cross2 a b c) (_h2 : 0 < cross2 b c d)
    (h3 : 0 < cross2 c d a) (_h4 : 0 < cross2 d a b) :
    (create_mesh_from_points [a, b, c, d]).faces = [0, 1, 2, 0, 2, 3] ∧
      tri_area a b c + tri_area a c d = quad_area a b c d := by
  refine ⟨rfl, ?_⟩
  have hacd : 0 < cross2 a c d := by
    have e1 : cross2 a c d = cross2 c d a := by unfold cross2; ring
    rw [e1]; exact h3
  have eshoe : a.x * (b.y - d.y) + b.x * (c.y - a.y) + c.x * (d.y - b.y) +
      d.x * (a.y - c.y) = cross2 a b c + cross2 a c d := by
    unfold cross2; ring
  unfold tri_area quad_area
  rw [eshoe, abs_of_pos h1, abs_of_pos hacd, abs_of_pos (add_pos h1 hacd)]
  ring

/-- Witness for C3 at the unit square. -/
theorem c3_convex_quad_two_triangles_witness :
    (create_mesh_from_points
        [(⟨0, 0, 0⟩ : Point3), ⟨1, 0, 0⟩, ⟨1, 1, 0⟩, ⟨0, 1, 0⟩]).faces =
      [0, 1, 2, 0, 2, 3] ∧
      tri_area ⟨0, 0, 0⟩ ⟨1, 0, 0⟩ ⟨1, 1, 0⟩ +
          tri_area ⟨0, 0, 0⟩ ⟨1, 1, 0⟩ ⟨0, 1, 0⟩ =
        quad_area ⟨0, 0, 0⟩ ⟨1, 0, 0⟩ ⟨1, 1, 0⟩ ⟨0, 1, 0⟩ :=
  c3_convex_quad_two_triangles ⟨0, 0, 0⟩ ⟨1, 0, 0⟩ ⟨1, 1, 0⟩ ⟨0, 1, 0⟩
    rfl rfl rfl rfl (by decide) (by decide) (by decide) (by decide)

/-- C2 (code divergence): the source's loop grouping performs no
connectivity analysis. The unclosed chain `line_a, line_b` (free end
`(1,1,0)` never returns to the start `(0,0,0)`; the closing curve is
missing) is returned as a single loop rather than excluded, the boundary
holding it reports no failure, and the chain is tessellated into a mesh. -/
theorem c2_unclosed_chain_not_reported :
    group_curves_into_loops [line_a, line_b] = [[line_a, line_b]] ∧
      result_failure (process_boundary (1 / 100) (1 / 10) open_chain_boundary) = none ∧
      (result_meshes (process_boundary (1 / 100) (1 / 10) open_chain_boundary)).map
          Mesh.faces = [[0, 1, 2, 0, 2, 3]] :=
  ⟨rfl, rfl, rfl⟩

/-- C5 counterexample: `low_area_boundary` declares `area = 1/20`, below
the threshold `1/10`, yet the pipeline appends the failure entry
`No curves found` for it — the curve-extraction check runs before the
area-threshold check, so the skip is not always silent. -/
theorem c5_counterexample :
    dict_lookup low_area_boundary.mattrs "area" = some (.num (1 / 20)) ∧
      (1 / 20 : ℚ) < 1 / 10 ∧
      process_boundary (1 / 100) (1 / 10) low_area_boundary =
        .failed "No curves found" :=
  ⟨rfl, by norm_num, rfl⟩

/-- C4 counterexample: the loop holding `collapsed_poly` pools three
coincident points — one distinct vertex after merging, a degenerate polygon
in the claim's sense — yet surface creation returns a mesh (with one
degenerate triangle) rather than no mesh: the source counts raw points and
never merges coincident vertices. -/
theorem c4_counterexample :
    (create_surface_from_curves [collapsed_poly] []).isSome = true ∧
      (create_surface_from_curves [collapsed_poly] []).map Mesh.faces =
        some [0, 1, 2] ∧
      ([collapsed_poly].flatMap get_curve_points).toFinset.card = 1 :=
  ⟨rfl, rfl, by decide⟩

/-- C5 amended: a boundary that yields curves, passes the coplanarity gate,
and whose extracted metadata carries a numeric `area` below the threshold is
skipped silently — no mesh is produced and no failure entry is appended. -/
theorem c5_amended_silent_skip (tol minArea a : ℚ) (b : Boundary)
    (hc : extract_curves_from_boundary b ≠ [])
    (hp : curves_are_coplanar tol (extract_curves_from_boundary b) = true)
    (ha : dict_lookup (extract_metadata b) "area" = some (.num a))
    (hlt : a < minArea) :
    result_meshes (process_boundary tol minArea b) = [] ∧
      result_failure (process_boundary tol minArea b) = none := by
  have h1 : (extract_curves_from_boundary b).isEmpty = false := by
    cases hE : extract_curves_from_boundary b with
    | nil => exact absurd hE hc
    | cons x xs => rfl
  have h2 : area_skip (extract_metadata b) minArea = some true := by
    unfold area_skip
    rw [ha]
    simp [hlt]
  simp [process_boundary, h1, hp, h2, result_meshes, result_failure]

/-- Witness for C5 amended: a triangle boundary declaring `area = 1/20`
under threshold `1/10` yields no mesh and no failure entry. -/
theorem c5_amended_silent_skip_witness :
    result_meshes (process_boundary (1 / 100) (1 / 10) small_area_boundary) = [] ∧
      result_failure (process_boundary (1 / 100) (1 / 10) small_area_boundary) =
        none :=
  c5_amended_silent_skip (1 / 100) (1 / 10) (1 / 20) small_area_boundary
    (by decide) (by decide) rfl (by decide)

/-- C4 amended: surface creation yields no mesh exactly when the loop pools
fewer than 3 raw points (coincident points are never merged), and a `none`
surface is silent at the pipeline level: the boundary's result is an empty
mesh list with no failure entry, and the batch continues. -/
theorem c4_amended_raw_count_silent (cs : List SpeckleObject)
    (md : List (String × MVal)) (tol minArea : ℚ) (b : Boundary)
    (hc : extract_curves_from_boundary b ≠ [])
    (hp : curves_are_coplanar tol (extract_curves_from_boundary b) = true)
    (ha : area_skip (extract_metadata b) minArea = some false)
    (hdeg : ((extract_curves_from_boundary b).flatMap get_curve_points).length < 3) :
    (create_surface_from_curves cs md = none ↔
        (cs.flatMap get_curve_points).length < 3) ∧
      result_meshes (process_boundary tol minArea b) = [] ∧
      result_failure (process_boundary tol minArea b) = none := by
  have hiff : ∀ (cs' : List SpeckleObject) (md' : List (String × MVal)),
      create_surface_from_curves cs' md' = none ↔
        (cs'.flatMap get_curve_points).length < 3 := by
    intro cs' md'
    unfold create_surface_from_curves
    dsimp only
    split
    · simp_all
    · simp_all
  have h1 : (extract_curves_from_boundary b).isEmpty = false := by
    cases hE : extract_curves_from_boundary b with
    | nil => exact absurd hE hc
    | cons x xs => rfl
  have hnone := (hiff (extract_curves_from_boundary b) (extract_metadata b)).mpr hdeg
  refine ⟨hiff cs md, ?_⟩
  simp [process_boundary, h1, hp, ha, group_curves_into_loops, hnone,
    result_meshes, result_failure]

/-- Witness for C4 amended: a loop holding one two-point line yields no
surface, and the boundary holding it reports no failure and no mesh. -/
theorem c4_amended_raw_count_silent_witness :
    (create_surface_from_curves [line_a] [] = none ↔
        ([line_a].flatMap get_curve_points).length < 3) ∧
      result_meshes (process_boundary (1 / 100) (1 / 10) two_point_boundary) = [] ∧
      result_failure (process_boundary (1 / 100) (1 / 10) two_point_boundary) =
        none :=
  c4_amended_raw_count_silent [line_a] [] (1 / 100) (1 / 10) two_point_boundary
    (by decide) (by decide) rfl (by decide)

/-- C6 counterexample: `generic_curve_obj` has the real specklepy type
string `Objects.Geometry.Curve`, which is neither equal to nor contains any
member of the specification's closed kind set (which names `GenericCurve`,
not `Curve`), yet the extractor includes it: `is_curve` accepts any
`speckle_type` containing the bare substring `Curve`. -/
theorem c6_counterexample :
    extract_curves_from_boundary generic_curve_boundary = [generic_curve_obj] ∧
      (∀ t ∈ spec_curve_kinds,
        str_contains generic_curve_obj.speckle_type t = false) ∧
      generic_curve_obj.speckle_type ∉ spec_curve_kinds := by
  refine ⟨rfl, by decide, by decide⟩

/-- Every object delivered by one probing step is either carried over from
the accumulator or accepted by `is_curve`. -/
theorem mem_probe_attr {o : SpeckleObject} {acc : List SpeckleObject}
    {a : Option AttrVal} (h : o ∈ probe_attr acc a) :
    o ∈ acc ∨ is_curve o = true := by
  cases a with
  | none => exact Or.inl h
  | some v =>
    cases v with
    | alist xs =>
      rcases List.mem_append.mp h with h1 | h1
      · exact Or.inl h1
      · exact Or.inr (List.mem_filter.mp h1).2
    | aobj x =>
      cases hx : is_curve x with
      | false => simp only [probe_attr, hx, Bool.false_eq_true, if_false] at h
                 exact Or.inl h
      | true =>
        simp only [probe_attr, hx, if_true] at h
        rcases List.mem_append.mp h with h1 | h1
        · exact Or.inl h1
        · rcases List.mem_singleton.mp h1 with rfl
          exact Or.inr hx

/-- Every object delivered by folding probing steps over a list of
attributes is either carried over from the accumulator or curve-typed. -/
theorem mem_foldl_probe {o : SpeckleObject} :
    ∀ (l : List (Option AttrVal)) (acc : List SpeckleObject),
      o ∈ l.foldl probe_attr acc → o ∈ acc ∨ is_curve o = true := by
  intro l
  induction l with
  | nil => exact fun acc h => Or.inl h
  | cons a t ih =>
    intro acc h
    rcases ih (probe_attr acc a) h with h1 | h1
    · exact mem_probe_attr h1
    · exact Or.inr h1

/-- C6 amended: the extractor includes an object only if it is a `Base`
instance whose `speckle_type` string contains one of the substrings
`Line`, `Polyline`, `Curve`, `Arc`, `Circle`, `Ellipse` (substring match
against `Curve`, not exact match against a `GenericCurve` kind); every
other object is excluded silently. -/
theorem c6_amended_substring_filter (b : Boundary) (o : SpeckleObject)
    (h : o ∈ extract_curves_from_boundary b) :
    o.isBase = true ∧
      ∃ t ∈ curve_types, str_contains o.speckle_type t = true := by
  have hcur : is_curve o = true := by
    rcases mem_foldl_probe _ _ h with h1 | h1
    · simp at h1
    · exact h1
  unfold is_curve at hcur
  rw [Bool.and_eq_true] at hcur
  refine ⟨hcur.1, ?_⟩
  rcases List.any_eq_true.mp hcur.2 with ⟨t, ht, hc⟩
  exact ⟨t, ht, hc⟩

/-- Witness for C6 amended at `generic_curve_obj`. -/
theorem c6_amended_substring_filter_witness :
    generic_curve_obj.isBase = true ∧
      ∃ t ∈ curve_types,
        str_contains generic_curve_obj.speckle_type t = true :=
  c6_amended_substring_filter generic_curve_boundary generic_curve_obj (by decide)

/-- C7: loop grouping is order-independent up to point-set comparison: for
every curve list and every permutation of it, the grouped loops, each viewed
as its set of sample points (which ignores traversal direction), coincide. -/
theorem c7_grouping_perm_invariant (cs cs' : List SpeckleObject)
    (h : cs.Perm cs') :
    (group_curves_into_loops cs).map loop_points =
      (group_curves_into_loops cs').map loop_points := by
  cases cs with
  | nil =>
    have he : cs' = [] := h.symm.eq_nil
    rw [he]
  | cons c t =>
    cases cs' with
    | nil =>
      have he := h.eq_nil
      simp at he
    | cons d u =>
      show [loop_points (c :: t)] = [loop_points (d :: u)]
      have hs : loop_points (c :: t) = loop_points (d :: u) := by
        apply Finset.ext
        intro p
        simp only [loop_points, List.mem_toFinset, List.mem_flatMap]
        constructor
        · rintro ⟨x, hx, hp⟩
          exact ⟨x, h.mem_iff.mp hx, hp⟩
        · rintro ⟨x, hx, hp⟩
          exact ⟨x, h.mem_iff.mpr hx, hp⟩
      rw [hs]

/-- Witness for C7: swapping the two curves of the open chain leaves the
grouped loops, compared as point sets, unchanged. -/
theorem c7_grouping_perm_invariant_witness :
    (group_curves_into_loops [line_a, line_b]).map loop_points =
      (group_curves_into_loops [line_b, line_a]).map loop_points :=
  c7_grouping_perm_invariant [line_a, line_b] [line_b, line_a]
    (List.Perm.swap line_b line_a [])

/-- `propagate_metadata` never touches the vertex list. -/
theorem propagate_metadata_vertices (md : List (String × MVal)) :
    ∀ m : Mesh, (propagate_metadata md m).vertices = m.vertices := by
  induction md with
  | nil => exact fun m => rfl
  | cons kv t ih => exact fun m => ih (set_attr m kv.1 kv.2)

/-- `propagate_metadata` never touches the face list. -/
theorem propagate_metadata_faces (md : List (String × MVal)) :
    ∀ m : Mesh, (propagate_metadata md m).faces = m.faces := by
  induction md with
  | nil => exact fun m => rfl
  | cons kv t ih => exact fun m => ih (set_attr m kv.1 kv.2)

/-- `propagate_metadata` never touches the `speckle_type` field. -/
theorem propagate_metadata_st (md : List (String × MVal)) :
    ∀ m : Mesh, (propagate_metadata md m).speckle_type = m.speckle_type := by
  induction md with
  | nil => exact fun m => rfl
  | cons kv t ih => exact fun m => ih (set_attr m kv.1 kv.2)

/-- `propagate_metadata` never touches the `converted_from` field. -/
theorem propagate_metadata_cf (md : List (String × MVal)) :
    ∀ m : Mesh, (propagate_metadata md m).converted_from = m.converted_from := by
  induction md with
  | nil => exact fun m => rfl
  | cons kv t ih => exact fun m => ih (set_attr m kv.1 kv.2)

/-- After a run of `setattr` calls, an attribute holds the value of the last
metadata item with its key, and is untouched when no item has its key. -/
theorem propagate_metadata_attrs (md : List (String × MVal)) :
    ∀ (m : Mesh) (k : String),
      (propagate_metadata md m).attrs k =
        match assoc_last md k with
        | some v => some v
        | none => m.attrs k := by
  induction md with
  | nil => exact fun m k => rfl
  | cons kv t ih =>
    intro m k
    refine (ih (set_attr m kv.1 kv.2) k).trans ?_
    cases hA : assoc_last t k with
    | some v => simp [assoc_last, hA]
    | none =>
      simp only [assoc_last, hA, set_attr]
      by_cases hk : kv.1 = k
      · simp [hk]
      · have hk2 : ¬(k = kv.1) := fun e => hk e.symm
        simp [hk, hk2]

/-- C9: metadata propagation is idempotent — extracting a boundary's
metadata and propagating it onto a mesh twice leaves exactly the mapping
one propagation produces: no duplicated keys, no changed values. -/
theorem c9_metadata_propagation_idempotent (b : Boundary) (m : Mesh) :
    propagate_metadata (extract_metadata b)
        (propagate_metadata (extract_metadata b) m) =
      propagate_metadata (extract_metadata b) m := by
  apply Mesh.ext
  · simp [propagate_metadata_vertices]
  · simp [propagate_metadata_faces]
  · funext k
    cases hA : assoc_last (extract_metadata b) k <;>
      simp [propagate_metadata_attrs, hA]
  · simp [propagate_metadata_st]
  · simp [propagate_metadata_cf]

end NCR
